import Mathlib

/-!
Shallow embedding of `src/backend/trends_routes.py` (ECOM repository).

Modelling conventions:
* Python/JSON values are modelled by the inductive `JVal`; JSON numbers are
  rationals (`ℚ`), since JSON numeric literals are finite decimals.  The
  int/float distinction of Python is not tracked; where Python prints a
  number we print its exact decimal expansion.
* A Python `dict` produced by `json.loads` is an association list
  `List (String × JVal)`; `setKey` mirrors Python assignment (overwrite in
  place, append when the key is new, insertion order preserved).
* Calls to the network (SerpAPI search, Groq LLM) are oracles passed in as
  parameters: an `Upstream` value is either the raw LLM text or the message
  of the exception raised anywhere upstream.
* `random.uniform(3.0, 65.0)` is modelled by a rational parameter; theorems
  that need the range carry the hypothesis `3 ≤ r ∧ r ≤ 65`.
* Python `round(x, 1)` is modelled by decimal round-half-even (`round1`).
-/

set_option autoImplicit false

namespace Ecom

/-- JSON values as decoded by `json.loads` (numbers as exact rationals). -/
inductive JVal where
  | jnull : JVal
  | jbool : Bool → JVal
  | jnum  : ℚ → JVal
  | jstr  : String → JVal
  | jarr  : List JVal → JVal
  | jobj  : List (String × JVal) → JVal

/-- A parsed trend record: a Python dict, keys in insertion order. -/
abbrev Record := List (String × JVal)

/-- `d[k]` / `k in d` lookup on the association-list model of a dict. -/
def lookupKey (r : Record) (k : String) : Option JVal :=
  match r with
  | [] => none
  | (k', v) :: rest => if k' = k then some v else lookupKey rest k

/-- `d[k] = v` on the association-list model of a dict: overwrite an
existing key in place, append a new key at the end. -/
def setKey (r : Record) (k : String) (v : JVal) : Record :=
  match r with
  | [] => [(k, v)]
  | (k', v') :: rest => if k' = k then (k, v) :: rest else (k', v') :: setKey rest k v

/-- Index of the first occurrence of a character, if any. -/
def firstIdxOf (c : Char) : List Char → Option Nat
  | [] => none
  | c' :: rest =>
      if c' = c then some 0
      else (firstIdxOf c rest).map (· + 1)

/-- Index of the last occurrence of a character, if any. -/
def lastIdxOf (c : Char) : List Char → Option Nat
  | [] => none
  | c' :: rest =>
      match lastIdxOf c rest with
      | some i => some (i + 1)
      | none => if c' = c then some 0 else none

/-- The inclusive slice `s[i..j]` of a character list. -/
def sliceIncl (s : List Char) (i j : Nat) : List Char :=
  (s.drop i).take (j + 1 - i)

/-- Embeds `clean_json_response` (`trends_routes.py` lines 67-69):
`re.search(r"\[.*\]", text, re.DOTALL)` finds the leftmost match of a
greedy pattern, i.e. the span from the first `[` to the last `]` of the
whole text, provided that `]` comes after that `[`; on no match the
function returns the literal `"[]"`. -/
def clean_json_response (s : List Char) : List Char :=
  match firstIdxOf '[' s, lastIdxOf ']' s with
  | some i, some j => if i < j then sliceIncl s i j else [ '[', ']' ]
  | _, _ => [ '[', ']' ]

/-- Leading decimal digits of a character list, and the rest. -/
def takeDigits (s : List Char) : List Char × List Char :=
  (s.takeWhile Char.isDigit, s.dropWhile Char.isDigit)

/-- Try to match the regex `[-+]?\d+(\.\d+)?` anchored at the head of the
list; returns (negative?, integer digits, fraction digits) and mirrors the
greedy semantics of `re` (maximal digit runs, fraction only when a `.` is
directly followed by a digit). -/
def matchNumAt (s : List Char) : Option (Bool × List Char × List Char) :=
  let (neg, rest) :=
    match s with
    | '+' :: cs => (false, cs)
    | '-' :: cs => (true, cs)
    | _ => (false, s)
  let (ds, rest2) := takeDigits rest
  if ds = [] then none
  else
    match rest2 with
    | '.' :: cs =>
        let (fs, _) := takeDigits cs
        if fs = [] then some (neg, ds, []) else some (neg, ds, fs)
    | _ => some (neg, ds, [])

/-- Leftmost match of `[-+]?\d+(\.\d+)?` in a character list, as
`re.search` finds it: try every start position from the left. -/
def findFirstNum : List Char → Option (Bool × List Char × List Char)
  | [] => none
  | c :: cs =>
      match matchNumAt (c :: cs) with
      | some m => some m
      | none => findFirstNum cs

/-- Numeric value of a digit list (most significant first). -/
def digitsToNat (ds : List Char) : Nat :=
  ds.foldl (fun n c => n * 10 + (c.toNat - '0'.toNat)) 0

/-- Rational value of a matched signed decimal: sign, integer digits,
fraction digits. -/
def matchToRat (m : Bool × List Char × List Char) : ℚ :=
  let mag : ℚ := (digitsToNat m.2.1 : ℚ) + (digitsToNat m.2.2 : ℚ) / ((10 : ℚ) ^ m.2.2.length)
  if m.1 then -mag else mag

/-- `float(re.search(r"([-+]?\d+(\.\d+)?)", s).group(1))`: the first signed
decimal number occurring in `s`, if any. -/
def extractFirstNumber (s : List Char) : Option ℚ :=
  (findFirstNum s).map matchToRat

/-- Round-half-even to an integer (the rounding Python `round` uses). -/
def rhe (q : ℚ) : ℤ :=
  let f := ⌊q⌋
  let r := q - (f : ℚ)
  if r < 1/2 then f
  else if 1/2 < r then f + 1
  else if f % 2 = 0 then f else f + 1

/-- Python `round(x, 1)`: round to one decimal place, ties to even. -/
def round1 (q : ℚ) : ℚ := (rhe (q * 10) : ℚ) / 10

/-- Embeds `assign_random_metrics` (`trends_routes.py` lines 85-96); the
draw of `random.uniform(3.0, 65.0)` is the parameter `r`. -/
def assign_random_metrics (r : ℚ) : ℚ × String × ℤ :=
  let pct := round1 r
  if pct ≥ 35 then (pct, "High 🔥", 85)
  else if pct ≥ 15 then (pct, "Medium ⚡", 55)
  else (pct, "Low ❄️", 20)

/-- Decimal digits of the fractional part of `num/den` (long division;
`fuel` bounds the number of digits and suffices for every rational coming
from a JSON literal, whose denominator divides a power of ten). -/
def fracDigits (fuel : Nat) (num den : Nat) : String :=
  match fuel with
  | 0 => ""
  | fuel' + 1 =>
      if num = 0 ∨ den = 0 then ""
      else toString (num * 10 / den) ++ fracDigits fuel' (num * 10 % den) den

/-- Python `str()` of a parsed JSON number: integers print without a
decimal point, other rationals print their decimal expansion. -/
def numRepr (q : ℚ) : String :=
  if q.den = 1 then toString q.num
  else
    (if q < 0 then "-" else "") ++
      toString (q.num.natAbs / q.den) ++ "." ++
      fracDigits 64 (q.num.natAbs % q.den) q.den

mutual

/-- Python `str()` / `repr()` of a decoded JSON value (`reprMode` selects
`repr`, which quotes strings, as used for elements of containers). -/
def pyVal (reprMode : Bool) : JVal → String
  | .jnull => "None"
  | .jbool true => "True"
  | .jbool false => "False"
  | .jnum q => numRepr q
  | .jstr s => if reprMode then "'" ++ s ++ "'" else s
  | .jarr xs => "[" ++ pyValList xs ++ "]"
  | .jobj fs => "\x7b" ++ pyValFields fs ++ "\x7d"

/-- Comma-separated `repr`s of list elements, as Python prints a list. -/
def pyValList : List JVal → String
  | [] => ""
  | [x] => pyVal true x
  | x :: y :: rest => pyVal true x ++ ", " ++ pyValList (y :: rest)

/-- Comma-separated `repr`s of dict items, as Python prints a dict. -/
def pyValFields : List (String × JVal) → String
  | [] => ""
  | [(k, v)] => "'" ++ k ++ "': " ++ pyVal true v
  | (k, v) :: p :: rest => "'" ++ k ++ "': " ++ pyVal true v ++ ", " ++ pyValFields (p :: rest)

end

/-- Python `str(x)`. -/
def pyStr (v : JVal) : String := pyVal false v

/-- Python `f"{pct}%"` minus the `%`: the repr of a one-decimal float
(Python always prints a decimal point for floats, e.g. `45.0` → "45.0"). -/
def formatOneDec (q : ℚ) : String :=
  let n : ℤ := ⌊q * 10⌋
  (if n < 0 then "-" else "") ++ toString (n.natAbs / 10) ++ "." ++ toString (n.natAbs % 10)

/-- Embeds lines 116-123 of `process_city`: `pct` is `None` unless the
record has a `change_pct` key whose `str()` form contains a signed decimal
number, in which case it is that first number rounded to one decimal. -/
def resolvePct (trend : Record) : Option ℚ :=
  match lookupKey trend "change_pct" with
  | none => none
  | some v =>
      match extractFirstNumber (pyStr v).data with
      | none => none
      | some n => some (round1 n)

/-- Embeds lines 125-136 of `process_city`: the resolved percentage with
its bucket label and score; when no percentage was resolved the fallback
`assign_random_metrics` is used (`r` is the random draw). -/
def pctTriple (r : ℚ) (trend : Record) : ℚ × String × ℤ :=
  match resolvePct trend with
  | none => assign_random_metrics r
  | some pct =>
      if pct ≥ 35 then (pct, "High 🔥", 85)
      else if pct ≥ 15 then (pct, "Medium ⚡", 55)
      else (pct, "Low ❄️", 20)

/-- The three-tier threshold if-chain shared verbatim by
`assign_random_metrics` (lines 87-95) and the resolved-percentage branch
of `process_city` (lines 128-136). -/
def bucketTriple (p : ℚ) : ℚ × String × ℤ :=
  if p ≥ 35 then (p, "High 🔥", 85)
  else if p ≥ 15 then (p, "Medium ⚡", 55)
  else (p, "Low ❄️", 20)

/-- `isinstance(·, list)` on an optional value; `none` stands for the
Python default `trend.get(key, list)` producing the class `list`, which is
itself not a `list` instance. -/
def isArrOpt : Option JVal → Bool
  | some (.jarr _) => true
  | _ => false

/-- Embeds lines 143-145 of `process_city` for one key: if the key is
absent or its value is not a list, it is replaced by
`trend.get(key, []) if isinstance(trend.get(key, list), list) else []`,
which evaluates to the present list value or, in every reachable case of
the guard, to `[]`. -/
def fixListKey (trend : Record) (key : String) : Record :=
  let v := lookupKey trend key
  if v.isNone || !(isArrOpt v) then
    setKey trend key (if isArrOpt v then v.getD (.jarr []) else .jarr [])
  else trend

/-- Embeds the body of the `for trend in parsed` loop of `process_city`
(lines 115-145): percentage resolution, bucketing, field overwrites and
list-field defaulting for one record; `r` is the random draw used when no
percentage could be resolved. -/
def normalizeRecord (r : ℚ) (trend : Record) : Record :=
  let t := pctTriple r trend
  let pct := t.1
  let label := t.2.1
  let score := t.2.2
  let t1 := setKey trend "pct_change" (.jnum pct)
  let t2 := setKey t1 "change_pct" (.jstr (formatOneDec pct ++ "%"))
  let t3 := setKey t2 "popularity_score" (.jnum (score : ℚ))
  let t4 := setKey t3 "popularity" ((lookupKey t3 "popularity").getD (.jstr label))
  fixListKey (fixListKey (fixListKey (fixListKey t4 "features") "competitors") "local_hotspots") "tips"

/-- Skip JSON whitespace. -/
def skipWs : List Char → List Char
  | c :: cs => if c = ' ' ∨ c = '\n' ∨ c = '\t' ∨ c = '\r' then skipWs cs else c :: cs
  | [] => []

/-- One escaped character of a JSON string literal (`\uXXXX` escapes are
not modelled; no claim exercises them). -/
def escChar (c : Char) : Char :=
  if c = 'n' then '\n'
  else if c = 't' then '\t'
  else if c = 'r' then '\r'
  else if c = 'b' then (Char.ofNat 8)
  else if c = 'f' then (Char.ofNat 12)
  else c

/-- Body of a JSON string literal after the opening quote: the decoded
characters and the rest of the input, or `none` when unterminated. -/
def parseStringBody : List Char → Option (List Char × List Char)
  | [] => none
  | '"' :: rest => some ([], rest)
  | '\\' :: c :: rest => (parseStringBody rest).map (fun p => (escChar c :: p.1, p.2))
  | '\\' :: [] => none
  | c :: rest => (parseStringBody rest).map (fun p => (c :: p.1, p.2))

/-- A JSON number after an optional leading `-`: digits, optional
fraction, optional exponent, following the `json` module's grammar. -/
def parseNumTail (neg : Bool) (s : List Char) : Option (ℚ × List Char) :=
  let (ds, r1) := takeDigits s
  if ds = [] then none
  else
    let (fs, r2) :=
      match r1 with
      | '.' :: cs =>
          let (fs, r) := takeDigits cs
          if fs = [] then ([], r1) else (fs, r)
      | _ => ([], r1)
    let base : ℚ := (digitsToNat ds : ℚ) + (digitsToNat fs : ℚ) / ((10 : ℚ) ^ fs.length)
    let withExp : Option (ℚ × List Char) :=
      match r2 with
      | e :: cs =>
          if e = 'e' ∨ e = 'E' then
            let (eneg, cs2) :=
              match cs with
              | '+' :: t => (false, t)
              | '-' :: t => (true, t)
              | _ => (false, cs)
            let (es, r3) := takeDigits cs2
            if es = [] then none
            else
              let p : ℚ := (10 : ℚ) ^ (digitsToNat es)
              some (if eneg then base / p else base * p, r3)
          else some (base, r2)
      | [] => some (base, r2)
    withExp.map (fun p => (if neg then -p.1 else p.1, p.2))

mutual

/-- Fuel-bounded recursive-descent parser for one JSON value, embedding
`json.loads` on the texts this service can produce. -/
def parseVal : Nat → List Char → Option (JVal × List Char)
  | 0, _ => none
  | fuel + 1, s =>
      match skipWs s with
      | 'n' :: 'u' :: 'l' :: 'l' :: r => some (.jnull, r)
      | 't' :: 'r' :: 'u' :: 'e' :: r => some (.jbool true, r)
      | 'f' :: 'a' :: 'l' :: 's' :: 'e' :: r => some (.jbool false, r)
      | '"' :: r => (parseStringBody r).map (fun p => (.jstr (String.mk p.1), p.2))
      | '[' :: r =>
          (match skipWs r with
           | ']' :: r' => some (.jarr [], r')
           | r' => (parseElems fuel r').map (fun p => (.jarr p.1, p.2)))
      | '\x7b' :: r =>
          (match skipWs r with
           | '\x7d' :: r' => some (.jobj [], r')
           | r' => (parseMembers fuel r').map (fun p => (.jobj p.1, p.2)))
      | '-' :: r => (parseNumTail true r).map (fun p => (.jnum p.1, p.2))
      | r =>
          match r with
          | c :: _ => if c.isDigit then (parseNumTail false r).map (fun p => (.jnum p.1, p.2)) else none
          | [] => none

/-- One or more comma-separated JSON values followed by `]`. -/
def parseElems : Nat → List Char → Option (List JVal × List Char)
  | 0, _ => none
  | fuel + 1, s =>
      match parseVal fuel s with
      | none => none
      | some (v, r) =>
          match skipWs r with
          | ',' :: r' => (parseElems fuel r').map (fun p => (v :: p.1, p.2))
          | ']' :: r' => some ([v], r')
          | _ => none

/-- One or more comma-separated `"key": value` pairs followed by a closing
brace. -/
def parseMembers : Nat → List Char → Option (List (String × JVal) × List Char)
  | 0, _ => none
  | fuel + 1, s =>
      match skipWs s with
      | '"' :: r =>
          match parseStringBody r with
          | none => none
          | some (k, r1) =>
              match skipWs r1 with
              | ':' :: r2 =>
                  match parseVal fuel r2 with
                  | none => none
                  | some (v, r3) =>
                      match skipWs r3 with
                      | ',' :: r4 => (parseMembers fuel r4).map (fun p => ((String.mk k, v) :: p.1, p.2))
                      | '\x7d' :: r4 => some ([(String.mk k, v)], r4)
                      | _ => none
              | _ => none
      | _ => none

end

/-- `json.loads`: parse a complete JSON document, requiring only trailing
whitespace after the value. -/
def json_loads (s : String) : Option JVal :=
  match parseVal (2 * s.length + 4) s.data with
  | some (v, rest) => if skipWs rest = [] then some v else none
  | none => none

/-- Result of the upstream part of one city's pipeline (SerpAPI search
plus the Groq call): either the raw LLM text, or the message of an
exception raised by either external call. -/
inductive Upstream where
  | ok (llmText : String) : Upstream
  | fail (msg : String) : Upstream

/-- The record `{"city": city, "error": str(e)}` built by the `except`
branch of `process_city` (line 149). -/
def errorRecord (city msg : String) : Record :=
  [("city", .jstr city), ("error", .jstr msg)]

/-- The `for trend in parsed` loop over the decoded array: each dict
element is normalized (with its own random draw `rand i`); a non-dict
element makes `"change_pct" in trend` (or the later item assignment)
raise `TypeError`, which aborts the whole city. -/
def normalizeAll (rand : Nat → ℚ) : Nat → List JVal → Option (List Record)
  | _, [] => some []
  | i, .jobj fs :: rest => (normalizeAll rand (i + 1) rest).map (normalizeRecord (rand i) fs :: ·)
  | _, _ :: _ => none

/-- Embeds `process_city` (lines 98-149): on upstream failure, a JSON
parse failure, or a `TypeError` while normalizing, the `except` branch
returns the single error record for this city; otherwise the normalized
list.  (The exact text of Python's parse/type error messages is not
modelled; upstream exception messages are propagated as `str(e)` is.) -/
def process_city (rand : Nat → ℚ) (up : Upstream) (city : String) : List Record :=
  match up with
  | .fail e => [errorRecord city e]
  | .ok text =>
      match json_loads (String.mk (clean_json_response text.data)) with
      | none => [errorRecord city "JSONDecodeError"]
      | some (.jarr items) =>
          match normalizeAll rand 0 items with
          | some recs => recs
          | none => [errorRecord city "TypeError"]
      | some _ => [errorRecord city "TypeError"]

/-- Embeds `get_trends` (lines 154-159): one `process_city` task per city
(the upstream calls and random draws of each city's pipeline are the
oracles `env` and `rand`, both fed the request's city and category), the
results flattened in request order.  There is no cache or other state in
the route. -/
def get_trends (rand : String → Nat → ℚ) (env : String → String → Upstream)
    (cities : List String) (category : String) : List Record :=
  (cities.map (fun c => process_city (rand c) (env c category) c)).flatten

/-- `get_trends` with the upstream dispatches made observable: `pipe` is a
stateful oracle standing for one whole per-city pipeline (search + LLM +
normalization), and the state threads through the per-city tasks of one
request.  The route body dispatches `pipe` once per requested city,
unconditionally — there is no lookup that could short-circuit it. -/
def get_trends_st {σ : Type} (pipe : σ → String → String → List Record × σ)
    (s : σ) (cities : List String) (category : String) : List Record × σ :=
  match cities with
  | [] => ([], s)
  | c :: rest =>
      let pr := pipe s c category
      let rr := get_trends_st pipe pr.2 rest category
      (pr.1 ++ rr.1, rr.2)

/-- Instrument a pipeline oracle with a log of upstream dispatches: every
call appends its (city, category) pair. -/
def loggedPipe {σ : Type} (pipe : σ → String → String → List Record × σ) :
    σ × List (String × String) → String → String → List Record × (σ × List (String × String)) :=
  fun p c cat =>
    ((pipe p.1 c cat).1, ((pipe p.1 c cat).2, p.2 ++ [(c, cat)]))

/-- A concrete stateful upstream pipeline used to analyse repeated
requests: its state counts the upstream calls made so far and each
response records the call number (the LLM is an external nondeterministic
service, so successive calls may answer differently). -/
def cxPipe : ℕ → String → String → List Record × ℕ :=
  fun n _ _ => ([[(toString n, JVal.jnull)]], n + 1)

/-- The first of two identical batch requests against `cxPipe`. -/
def cxFirst : List Record × (ℕ × List (String × String)) :=
  get_trends_st (loggedPipe cxPipe) (0, []) ["Mumbai", "Delhi"] "streetwear"

/-- The second, identical, batch request, served after the first. -/
def cxSecond : List Record × (ℕ × List (String × String)) :=
  get_trends_st (loggedPipe cxPipe) cxFirst.2 ["Mumbai", "Delhi"] "streetwear"

/-- One entry of SerpAPI's `images_results` as `fetch_feature_images`
reads it: its optional `original` and `thumbnail` string fields. -/
structure ImgEntry where
  original : Option String
  thumbnail : Option String

/-- Python `x or y` for optional strings (`None` and `""` are falsy). -/
def pyOrStr (a b : Option String) : Option String :=
  match a with
  | some s => if s = "" then b else some s
  | none => b

/-- Python truthiness of an optional string. -/
def truthy : Option String → Bool
  | some s => s ≠ ""
  | none => false

/-- Whitespace as Python `str.strip` removes it (ASCII subset). -/
def isSpaceChar (c : Char) : Bool :=
  c = ' ' ∨ c = '\n' ∨ c = '\t' ∨ c = '\r'

/-- Python `str.strip()`: drop leading and trailing whitespace. -/
def pyStrip (s : String) : String :=
  String.mk (((s.data.dropWhile isSpaceChar).reverse.dropWhile isSpaceChar).reverse)

/-- Python `str.startswith(pre)`. -/
def pyStartsWith (s pre : String) : Bool :=
  pre.data.isPrefixOf s.data

/-- The image search query built on line 177 of `fetch_feature_images`. -/
def searchQuery (refined_query category : String) : String :=
  "best selling " ++ refined_query ++ " " ++ category ++
    " fashion site:myntra.com OR site:amazon.in OR site:flipkart.com"

/-- Result of `fetch_feature_images`: the success dict
`{feature, category, refined_query, images}` or the error dict
`{feature, category, error}`. -/
inductive FIResult where
  | ok (feature category refined : String) (images : List String) : FIResult
  | err (feature category msg : String) : FIResult

/-- Embeds `fetch_feature_images` (lines 164-207).  The Groq refinement
call and the SerpAPI image search are oracles (`llm`; `google`, fed the
built search query); an exception from either is caught by the `except`
branch, which returns the error dict.  On success: urls are
`original or thumbnail` of each entry when truthy, filtered to truthy
strings starting with `"http"`, truncated to the first 6. -/
def fetch_feature_images (llm : Except String String)
    (google : String → Except String (List ImgEntry))
    (feature : String) (category : String) : FIResult :=
  match llm with
  | .error e => .err feature category e
  | .ok content =>
      let refined_query := pyStrip content
      match google (searchQuery refined_query category) with
      | .error e => .err feature category e
      | .ok image_results =>
          let image_urls :=
            (image_results.filter (fun img => truthy (pyOrStr img.original img.thumbnail))).filterMap
              (fun img => pyOrStr img.original img.thumbnail)
          let image_urls := image_urls.filter (fun u => u ≠ "" && pyStartsWith u "http")
          .ok feature category refined_query (image_urls.take 6)

/-- The value a list field ends up with after defaulting: the original
list if there was one, otherwise the empty list. -/
def listDefault (v : Option JVal) : JVal :=
  match v with
  | some (.jarr xs) => .jarr xs
  | _ => .jarr []

lemma lookup_setKey_self (r : Record) (k : String) (v : JVal) :
    lookupKey (setKey r k v) k = some v := by
  induction r with
  | nil => simp [setKey, lookupKey]
  | cons p rest ih =>
      obtain ⟨k', v'⟩ := p
      by_cases h : k' = k
      · simp [setKey, h, lookupKey]
      · simp [setKey, h, lookupKey, ih]

lemma lookup_setKey_ne (r : Record) {k k' : String} (v : JVal) (h : k' ≠ k) :
    lookupKey (setKey r k v) k' = lookupKey r k' := by
  induction r with
  | nil => simp [setKey, lookupKey, Ne.symm h]
  | cons p rest ih =>
      obtain ⟨a, b⟩ := p
      by_cases ha : a = k
      · subst ha
        simp [setKey, lookupKey, Ne.symm h]
      · simp [setKey, ha, lookupKey, ih]

lemma lookup_fixListKey_self (t : Record) (key : String) :
    lookupKey (fixListKey t key) key = some (listDefault (lookupKey t key)) := by
  unfold fixListKey
  match hv : lookupKey t key with
  | some (.jarr xs) => simp [hv, isArrOpt, listDefault]
  | none => simp [hv, isArrOpt, listDefault, lookup_setKey_self]
  | some .jnull => simp [hv, isArrOpt, listDefault, lookup_setKey_self]
  | some (.jbool b) => simp [hv, isArrOpt, listDefault, lookup_setKey_self]
  | some (.jnum q) => simp [hv, isArrOpt, listDefault, lookup_setKey_self]
  | some (.jstr s) => simp [hv, isArrOpt, listDefault, lookup_setKey_self]
  | some (.jobj fs) => simp [hv, isArrOpt, listDefault, lookup_setKey_self]

lemma lookup_fixListKey_ne (t : Record) (key : String) {k' : String} (h : k' ≠ key) :
    lookupKey (fixListKey t key) k' = lookupKey t k' := by
  unfold fixListKey
  by_cases hb : (lookupKey t key).isNone || !(isArrOpt (lookupKey t key))
  · simp only [hb, if_pos rfl]
    exact lookup_setKey_ne t _ h
  · simp [hb]

lemma nr_pct_change (r : ℚ) (trend : Record) :
    lookupKey (normalizeRecord r trend) "pct_change" = some (.jnum (pctTriple r trend).1) := by
  simp only [normalizeRecord]
  rw [lookup_fixListKey_ne _ _ (by decide), lookup_fixListKey_ne _ _ (by decide),
    lookup_fixListKey_ne _ _ (by decide), lookup_fixListKey_ne _ _ (by decide),
    lookup_setKey_ne _ _ (by decide), lookup_setKey_ne _ _ (by decide),
    lookup_setKey_ne _ _ (by decide), lookup_setKey_self]

lemma nr_change_pct (r : ℚ) (trend : Record) :
    lookupKey (normalizeRecord r trend) "change_pct" =
      some (.jstr (formatOneDec (pctTriple r trend).1 ++ "%")) := by
  simp only [normalizeRecord]
  rw [lookup_fixListKey_ne _ _ (by decide), lookup_fixListKey_ne _ _ (by decide),
    lookup_fixListKey_ne _ _ (by decide), lookup_fixListKey_ne _ _ (by decide),
    lookup_setKey_ne _ _ (by decide), lookup_setKey_ne _ _ (by decide),
    lookup_setKey_self]

lemma nr_popularity_score (r : ℚ) (trend : Record) :
    lookupKey (normalizeRecord r trend) "popularity_score" =
      some (.jnum ((pctTriple r trend).2.2 : ℚ)) := by
  simp only [normalizeRecord]
  rw [lookup_fixListKey_ne _ _ (by decide), lookup_fixListKey_ne _ _ (by decide),
    lookup_fixListKey_ne _ _ (by decide), lookup_fixListKey_ne _ _ (by decide),
    lookup_setKey_ne _ _ (by decide), lookup_setKey_self]

lemma nr_popularity (r : ℚ) (trend : Record) :
    lookupKey (normalizeRecord r trend) "popularity" =
      some ((lookupKey trend "popularity").getD (.jstr (pctTriple r trend).2.1)) := by
  simp only [normalizeRecord]
  rw [lookup_fixListKey_ne _ _ (by decide), lookup_fixListKey_ne _ _ (by decide),
    lookup_fixListKey_ne _ _ (by decide), lookup_fixListKey_ne _ _ (by decide),
    lookup_setKey_self, lookup_setKey_ne _ _ (by decide),
    lookup_setKey_ne _ _ (by decide), lookup_setKey_ne _ _ (by decide)]

lemma nr_features (r : ℚ) (trend : Record) :
    lookupKey (normalizeRecord r trend) "features" =
      some (listDefault (lookupKey trend "features")) := by
  simp only [normalizeRecord]
  rw [lookup_fixListKey_ne _ _ (by decide), lookup_fixListKey_ne _ _ (by decide),
    lookup_fixListKey_ne _ _ (by decide), lookup_fixListKey_self,
    lookup_setKey_ne _ _ (by decide), lookup_setKey_ne _ _ (by decide),
    lookup_setKey_ne _ _ (by decide), lookup_setKey_ne _ _ (by decide)]

lemma nr_competitors (r : ℚ) (trend : Record) :
    lookupKey (normalizeRecord r trend) "competitors" =
      some (listDefault (lookupKey trend "competitors")) := by
  simp only [normalizeRecord]
  rw [lookup_fixListKey_ne _ _ (by decide), lookup_fixListKey_ne _ _ (by decide),
    lookup_fixListKey_self, lookup_fixListKey_ne _ _ (by decide),
    lookup_setKey_ne _ _ (by decide), lookup_setKey_ne _ _ (by decide),
    lookup_setKey_ne _ _ (by decide), lookup_setKey_ne _ _ (by decide)]

lemma nr_local_hotspots (r : ℚ) (trend : Record) :
    lookupKey (normalizeRecord r trend) "local_hotspots" =
      some (listDefault (lookupKey trend "local_hotspots")) := by
  simp only [normalizeRecord]
  rw [lookup_fixListKey_ne _ _ (by decide), lookup_fixListKey_self,
    lookup_fixListKey_ne _ _ (by decide), lookup_fixListKey_ne _ _ (by decide),
    lookup_setKey_ne _ _ (by decide), lookup_setKey_ne _ _ (by decide),
    lookup_setKey_ne _ _ (by decide), lookup_setKey_ne _ _ (by decide)]

lemma nr_tips (r : ℚ) (trend : Record) :
    lookupKey (normalizeRecord r trend) "tips" =
      some (listDefault (lookupKey trend "tips")) := by
  simp only [normalizeRecord]
  rw [lookup_fixListKey_self, lookup_fixListKey_ne _ _ (by decide),
    lookup_fixListKey_ne _ _ (by decide), lookup_fixListKey_ne _ _ (by decide),
    lookup_setKey_ne _ _ (by decide), lookup_setKey_ne _ _ (by decide),
    lookup_setKey_ne _ _ (by decide), lookup_setKey_ne _ _ (by decide)]

lemma assign_random_metrics_eq (r : ℚ) :
    assign_random_metrics r = bucketTriple (round1 r) := rfl

lemma pctTriple_eq (r : ℚ) (trend : Record) :
    pctTriple r trend =
      match resolvePct trend with
      | none => bucketTriple (round1 r)
      | some p => bucketTriple p := by
  unfold pctTriple
  cases resolvePct trend <;> rfl

lemma bucketTriple_fst (p : ℚ) : (bucketTriple p).1 = p := by
  unfold bucketTriple
  split_ifs <;> rfl

lemma pctTriple_bucket (r : ℚ) (trend : Record) :
    pctTriple r trend = bucketTriple ((pctTriple r trend).1) := by
  rw [pctTriple_eq]
  cases resolvePct trend <;> simp [bucketTriple_fst]

lemma bucketTriple_spec (p : ℚ) :
    ((bucketTriple p).2 = ("High 🔥", (85 : ℤ)) ∨ (bucketTriple p).2 = ("Medium ⚡", 55) ∨
      (bucketTriple p).2 = ("Low ❄️", 20)) ∧
    (p ≥ 35 → (bucketTriple p).2 = ("High 🔥", 85)) ∧
    (15 ≤ p ∧ p < 35 → (bucketTriple p).2 = ("Medium ⚡", 55)) ∧
    (p < 15 → (bucketTriple p).2 = ("Low ❄️", 20)) := by
  unfold bucketTriple
  split_ifs with h1 h2
  · exact ⟨Or.inl rfl, fun _ => rfl, fun h => by exfalso; linarith [h.2],
      fun h => by exfalso; linarith⟩
  · exact ⟨Or.inr (Or.inl rfl), fun h => absurd h h1, fun _ => rfl,
      fun h => by exfalso; linarith⟩
  · exact ⟨Or.inr (Or.inr rfl), fun h => absurd h h1,
      fun h => absurd h.1 h2, fun _ => rfl⟩

lemma nr_other_key (r : ℚ) (trend : Record) {k : String}
    (h1 : k ≠ "pct_change") (h2 : k ≠ "change_pct") (h3 : k ≠ "popularity_score")
    (h4 : k ≠ "popularity") (h5 : k ≠ "features") (h6 : k ≠ "competitors")
    (h7 : k ≠ "local_hotspots") (h8 : k ≠ "tips") :
    lookupKey (normalizeRecord r trend) k = lookupKey trend k := by
  simp only [normalizeRecord]
  rw [lookup_fixListKey_ne _ _ h8, lookup_fixListKey_ne _ _ h7,
    lookup_fixListKey_ne _ _ h6, lookup_fixListKey_ne _ _ h5,
    lookup_setKey_ne _ _ h4, lookup_setKey_ne _ _ h3,
    lookup_setKey_ne _ _ h2, lookup_setKey_ne _ _ h1]

lemma le_rhe {q : ℚ} {a : ℤ} (h : (a : ℚ) ≤ q) : a ≤ rhe q := by
  unfold rhe
  dsimp only
  have hf : a ≤ ⌊q⌋ := Int.le_floor.mpr h
  split_ifs <;> omega

lemma rhe_le {q : ℚ} {b : ℤ} (h : q ≤ (b : ℚ)) : rhe q ≤ b := by
  unfold rhe
  dsimp only
  have hfb : ⌊q⌋ ≤ b := by
    calc ⌊q⌋ ≤ ⌊(b : ℚ)⌋ := Int.floor_le_floor h
    _ = b := Int.floor_intCast b
  split_ifs with h1 h2 h3
  · exact hfb
  · have hlt : (⌊q⌋ : ℚ) < q := by
      have := Int.floor_le q
      by_contra hc
      push_neg at hc
      have : q - (⌊q⌋ : ℚ) ≤ 0 := by linarith
      linarith [lt_of_le_of_lt this (by norm_num : (0:ℚ) < 1/2), h2]
    have : ⌊q⌋ < b := by exact_mod_cast lt_of_lt_of_le hlt h
    omega
  · exact hfb
  · have hlt : (⌊q⌋ : ℚ) < q := by
      push_neg at h1 h2
      have h12 : q - (⌊q⌋ : ℚ) = 1/2 := le_antisymm h2 h1
      linarith
    have : ⌊q⌋ < b := by exact_mod_cast lt_of_lt_of_le hlt h
    omega

lemma round1_bounds {r : ℚ} (h3 : 3 ≤ r) (h65 : r ≤ 65) :
    3 ≤ round1 r ∧ round1 r ≤ 65 := by
  unfold round1
  have hlo : (30 : ℤ) ≤ rhe (r * 10) := le_rhe (by push_cast; linarith)
  have hhi : rhe (r * 10) ≤ (650 : ℤ) := rhe_le (by push_cast; linarith)
  constructor
  · have : (30 : ℚ) ≤ (rhe (r * 10) : ℚ) := by exact_mod_cast hlo
    linarith
  · have : ((rhe (r * 10) : ℚ)) ≤ 650 := by exact_mod_cast hhi
    linarith

lemma round1_one_decimal (r : ℚ) : ∃ k : ℤ, round1 r = (k : ℚ) / 10 :=
  ⟨rhe (r * 10), rfl⟩

lemma listDefault_arr (v : Option JVal) : ∃ xs, listDefault v = .jarr xs := by
  unfold listDefault
  match v with
  | some (.jarr xs) => exact ⟨xs, rfl⟩
  | none => exact ⟨[], rfl⟩
  | some .jnull => exact ⟨[], rfl⟩
  | some (.jbool b) => exact ⟨[], rfl⟩
  | some (.jnum q) => exact ⟨[], rfl⟩
  | some (.jstr s) => exact ⟨[], rfl⟩
  | some (.jobj fs) => exact ⟨[], rfl⟩

lemma normalizeAll_mem (rand : Nat → ℚ) :
    ∀ (items : List JVal) (i : Nat) (recs : List Record),
      normalizeAll rand i items = some recs →
      ∀ rec ∈ recs, ∃ r t, rec = normalizeRecord r t := by
  intro items
  induction items with
  | nil =>
      intro i recs h rec hrec
      simp [normalizeAll] at h
      subst h
      simp at hrec
  | cons x rest ih =>
      intro i recs h rec hrec
      match x with
      | .jobj fs =>
          simp only [normalizeAll] at h
          match hrest : normalizeAll rand (i + 1) rest with
          | none => rw [hrest] at h; simp at h
          | some recs' =>
              rw [hrest] at h
              simp at h
              subst h
              rcases List.mem_cons.mp hrec with hh | hh
              · exact ⟨rand i, fs, hh⟩
              · exact ih (i + 1) recs' hrest rec hh
      | .jnull => simp [normalizeAll] at h
      | .jbool b => simp [normalizeAll] at h
      | .jnum q => simp [normalizeAll] at h
      | .jstr s => simp [normalizeAll] at h
      | .jarr xs => simp [normalizeAll] at h

/-- C4: for every resolved or fallback percentage, the label/score pair
assigned by the bucketing shared by `assign_random_metrics` and
`process_city` is exactly: pct ≥ 35.0 gives ("High 🔥", 85);
15.0 ≤ pct < 35.0 gives ("Medium ⚡", 55); pct < 15.0 gives ("Low ❄️", 20);
in particular the pair is always one of these three fixed combinations. -/
theorem C4_bucketing (r : ℚ) (trend : Record) :
    ((pctTriple r trend).2 = ("High 🔥", (85 : ℤ)) ∨
      (pctTriple r trend).2 = ("Medium ⚡", 55) ∨
      (pctTriple r trend).2 = ("Low ❄️", 20)) ∧
    ((pctTriple r trend).1 ≥ 35 → (pctTriple r trend).2 = ("High 🔥", 85)) ∧
    (15 ≤ (pctTriple r trend).1 ∧ (pctTriple r trend).1 < 35 →
      (pctTriple r trend).2 = ("Medium ⚡", 55)) ∧
    ((pctTriple r trend).1 < 15 → (pctTriple r trend).2 = ("Low ❄️", 20)) ∧
    ((assign_random_metrics r).2 = ("High 🔥", 85) ∨
      (assign_random_metrics r).2 = ("Medium ⚡", 55) ∨
      (assign_random_metrics r).2 = ("Low ❄️", 20)) := by
  have hb := bucketTriple_spec ((pctTriple r trend).1)
  have ha := (bucketTriple_spec (round1 r)).1
  rw [pctTriple_bucket r trend]
  rw [bucketTriple_fst]
  exact ⟨hb.1, hb.2.1, hb.2.2.1, hb.2.2.2, by rw [assign_random_metrics_eq]; exact ha⟩

/-- C4 witness: at the concrete fallback draw 40 and the empty record the
resolved percentage is 40 ≥ 35, and the theorem yields the pair
("High 🔥", 85). -/
theorem C4_witness : (pctTriple 40 []).2 = ("High 🔥", (85 : ℤ)) := by
  have h1 : (pctTriple 40 []).1 = 40 := by
    simp only [pctTriple, resolvePct, lookupKey, assign_random_metrics]
    norm_num [round1, rhe]
  exact (C4_bucketing 40 []).2.1 (by rw [h1]; norm_num)

/-- C8: for every record and each of the four keys `features`,
`competitors`, `local_hotspots`, `tips`, the normalized record holds the
original value when it was a list and the empty list when the key was
absent or its value was not a list (`listDefault` is exactly that case
split); in particular a record missing `features` comes out with
`features == []`. -/
theorem C8_list_defaulting (r : ℚ) (trend : Record) :
    lookupKey (normalizeRecord r trend) "features" =
      some (listDefault (lookupKey trend "features")) ∧
    lookupKey (normalizeRecord r trend) "competitors" =
      some (listDefault (lookupKey trend "competitors")) ∧
    lookupKey (normalizeRecord r trend) "local_hotspots" =
      some (listDefault (lookupKey trend "local_hotspots")) ∧
    lookupKey (normalizeRecord r trend) "tips" =
      some (listDefault (lookupKey trend "tips")) ∧
    lookupKey (normalizeRecord r []) "features" = some (.jarr []) := by
  refine ⟨nr_features r trend, nr_competitors r trend, nr_local_hotspots r trend,
    nr_tips r trend, ?_⟩
  rw [nr_features r []]
  rfl

lemma example_resolve : resolvePct [("change_pct", JVal.jstr "45.2%")] = some (452/10) := by
  simp [resolvePct, lookupKey, pyStr, pyVal, extractFirstNumber, findFirstNum, matchNumAt,
    takeDigits, digitsToNat, matchToRat]
  norm_num [round1, rhe]

lemma example_triple (r : ℚ) :
    pctTriple r [("change_pct", JVal.jstr "45.2%")] = (452/10, "High 🔥", 85) := by
  rw [pctTriple_eq, example_resolve]
  norm_num [bucketTriple]

lemma formatOneDec_452 : formatOneDec (452/10) = "45.2" := by
  unfold formatOneDec
  norm_num
  rfl

/-- C5: for every record processed by the Normalizer, `pct_change` is
always set to the resolved numeric value, `change_pct` is always
rewritten as the string "{pct}%", `popularity_score` is always overwritten
by the bucket score, and `popularity` is set from the bucket label only
when the record had no `popularity` key (an existing value wins); the
record with `change_pct` "45.2%" comes out with `pct_change` 45.2,
`change_pct` "45.2%", `popularity_score` 85 and `popularity` "High 🔥". -/
theorem C5_overwrite_policy (r : ℚ) (trend : Record) :
    lookupKey (normalizeRecord r trend) "pct_change" =
      some (.jnum (pctTriple r trend).1) ∧
    lookupKey (normalizeRecord r trend) "change_pct" =
      some (.jstr (formatOneDec (pctTriple r trend).1 ++ "%")) ∧
    lookupKey (normalizeRecord r trend) "popularity_score" =
      some (.jnum ((pctTriple r trend).2.2 : ℚ)) ∧
    lookupKey (normalizeRecord r trend) "popularity" =
      some ((lookupKey trend "popularity").getD (.jstr (pctTriple r trend).2.1)) ∧
    lookupKey (normalizeRecord r [("change_pct", JVal.jstr "45.2%")]) "pct_change" =
      some (.jnum (452/10)) ∧
    lookupKey (normalizeRecord r [("change_pct", JVal.jstr "45.2%")]) "change_pct" =
      some (.jstr "45.2%") ∧
    lookupKey (normalizeRecord r [("change_pct", JVal.jstr "45.2%")]) "popularity_score" =
      some (.jnum 85) ∧
    lookupKey (normalizeRecord r [("change_pct", JVal.jstr "45.2%")]) "popularity" =
      some (.jstr "High 🔥") := by
  have e := example_triple r
  refine ⟨nr_pct_change r trend, nr_change_pct r trend, nr_popularity_score r trend,
    nr_popularity r trend, ?_, ?_, ?_, ?_⟩
  · rw [nr_pct_change, e]
  · rw [nr_change_pct, e]
    simp [formatOneDec_452]
  · rw [nr_popularity_score, e]
    norm_num
  · rw [nr_popularity, e]
    simp [lookupKey]

lemma arm_fst (r : ℚ) : (assign_random_metrics r).1 = round1 r := by
  rw [assign_random_metrics_eq, bucketTriple_fst]

/-- C7: if the `change_pct` key exists, the first signed decimal number of
its string form is extracted and rounded to one decimal; if the key is
absent or no number can be extracted, the fallback percentage is used, and
every fallback value drawn from [3.0, 65.0] stays in [3.0, 65.0] after
rounding and has one decimal place. -/
theorem C7_percentage_resolution :
    (∀ (trend : Record) (v : JVal) (n : ℚ),
        lookupKey trend "change_pct" = some v →
        extractFirstNumber (pyStr v).data = some n →
        resolvePct trend = some (round1 n)) ∧
    (∀ trend : Record, lookupKey trend "change_pct" = none → resolvePct trend = none) ∧
    (∀ (trend : Record) (v : JVal),
        lookupKey trend "change_pct" = some v →
        extractFirstNumber (pyStr v).data = none → resolvePct trend = none) ∧
    (∀ (r : ℚ) (trend : Record), resolvePct trend = none →
        (pctTriple r trend).1 = (assign_random_metrics r).1) ∧
    (∀ r : ℚ, 3 ≤ r → r ≤ 65 →
        3 ≤ (assign_random_metrics r).1 ∧ (assign_random_metrics r).1 ≤ 65 ∧
        ∃ k : ℤ, (assign_random_metrics r).1 = (k : ℚ) / 10) := by
  refine ⟨?_, ?_, ?_, ?_, ?_⟩
  · intro trend v n hv hn
    unfold resolvePct
    rw [hv]
    dsimp only
    rw [hn]
  · intro trend h
    unfold resolvePct
    rw [h]
  · intro trend v hv hn
    unfold resolvePct
    rw [hv]
    dsimp only
    rw [hn]
  · intro r trend h
    unfold pctTriple
    rw [h]
  · intro r h3 h65
    rw [arm_fst]
    exact ⟨(round1_bounds h3 h65).1, (round1_bounds h3 h65).2, round1_one_decimal r⟩

/-- C7 witness: the extraction branch at `change_pct` "45.2%", the
absent-key and no-number branches, and the fallback bounds at the draw
3.5. -/
theorem C7_witness :
    resolvePct [("change_pct", JVal.jstr "45.2%")] = some (round1 (452/10)) ∧
    resolvePct [] = none ∧
    resolvePct [("change_pct", JVal.jstr "N/A")] = none ∧
    (3 ≤ (assign_random_metrics (7/2)).1 ∧ (assign_random_metrics (7/2)).1 ≤ 65 ∧
      ∃ k : ℤ, (assign_random_metrics (7/2)).1 = (k : ℚ) / 10) := by
  refine ⟨C7_percentage_resolution.1 _ (JVal.jstr "45.2%") (452/10) rfl ?_,
    C7_percentage_resolution.2.1 [] rfl,
    C7_percentage_resolution.2.2.1 _ (JVal.jstr "N/A") rfl rfl,
    C7_percentage_resolution.2.2.2.2 (7/2) (by norm_num) (by norm_num)⟩
  simp [pyStr, pyVal, extractFirstNumber, findFirstNum, matchNumAt, takeDigits,
    digitsToNat, matchToRat]
  norm_num

lemma firstIdxOf_spec (c : Char) :
    ∀ (s : List Char) (i : Nat), firstIdxOf c s = some i →
      ∃ hi : i < s.length, s.get ⟨i, hi⟩ = c := by
  intro s
  induction s with
  | nil => intro i h; simp [firstIdxOf] at h
  | cons a rest ih =>
      intro i h
      by_cases ha : a = c
      · simp [firstIdxOf, ha] at h
        subst h
        exact ⟨by simp, by simp [ha]⟩
      · simp [firstIdxOf, ha] at h
        obtain ⟨i', hi', rfl⟩ := h
        obtain ⟨hlt, hget⟩ := ih i' hi'
        exact ⟨by simpa using Nat.succ_lt_succ hlt, by simpa using hget⟩

lemma lastIdxOf_spec (c : Char) :
    ∀ (s : List Char) (i : Nat), lastIdxOf c s = some i →
      ∃ hi : i < s.length, s.get ⟨i, hi⟩ = c := by
  intro s
  induction s with
  | nil => intro i h; simp [lastIdxOf] at h
  | cons a rest ih =>
      intro i h
      unfold lastIdxOf at h
      cases hr : lastIdxOf c rest with
      | some i0 =>
          rw [hr] at h
          simp at h
          subst h
          obtain ⟨hlt, hget⟩ := ih i0 hr
          exact ⟨by simpa using Nat.succ_lt_succ hlt, by simpa using hget⟩
      | none =>
          rw [hr] at h
          by_cases ha : a = c
          · simp [ha] at h
            subst h
            exact ⟨by simp, by simp [ha]⟩
          · simp [ha] at h

/-- C9: for every input text with no `[...]` span (no position of `[`
strictly before a position of `]`), `clean_json_response` returns the
empty-array literal "[]". -/
theorem C9_no_span (s : List Char)
    (h : ¬ ∃ i : Fin s.length, ∃ j : Fin s.length,
        (i : ℕ) < (j : ℕ) ∧ s.get i = '[' ∧ s.get j = ']') :
    clean_json_response s = [ '[', ']' ] := by
  unfold clean_json_response
  rcases hf : firstIdxOf '[' s with _ | i
  · rfl
  · rcases hl : lastIdxOf ']' s with _ | j
    · rfl
    · have hni : ¬ i < j := by
        intro hij
        obtain ⟨hi, hgi⟩ := firstIdxOf_spec '[' s i hf
        obtain ⟨hj, hgj⟩ := lastIdxOf_spec ']' s j hl
        exact h ⟨⟨i, hi⟩, ⟨j, hj⟩, hij, hgi, hgj⟩
      dsimp only
      rw [if_neg hni]

/-- C9 witness: a concrete text with no bracket span maps to "[]". -/
theorem C9_witness : clean_json_response "plain prose response".data = [ '[', ']' ] :=
  C9_no_span _ (by decide)

lemma take_length_add (l₁ l₂ : List Char) (n : Nat) :
    (l₁ ++ l₂).take (l₁.length + n) = l₁ ++ l₂.take n := by
  induction l₁ with
  | nil => simp
  | cons a t ih =>
      have e : (a :: t).length + n = (t.length + n) + 1 := by simp; omega
      simp only [List.cons_append, e, List.take_succ_cons, ih]

lemma firstIdxOf_append (c : Char) (u w : List Char) (hu : c ∉ u) :
    firstIdxOf c (u ++ c :: w) = some u.length := by
  induction u with
  | nil => simp [firstIdxOf]
  | cons a u' ih =>
      have ha : ¬ a = c := by intro h; exact hu (by simp [h])
      have hu' : c ∉ u' := fun hm => hu (List.mem_cons_of_mem a hm)
      simp [firstIdxOf, ha, ih hu']

lemma lastIdxOf_not_mem (c : Char) (v : List Char) (hv : c ∉ v) :
    lastIdxOf c v = none := by
  induction v with
  | nil => rfl
  | cons a v' ih =>
      have ha : ¬ a = c := by intro h; exact hv (by simp [h])
      have hv' : c ∉ v' := fun hm => hv (List.mem_cons_of_mem a hm)
      simp [lastIdxOf, ih hv', ha]

lemma lastIdxOf_append (c : Char) (w v : List Char) (hv : c ∉ v) :
    lastIdxOf c (w ++ c :: v) = some w.length := by
  induction w with
  | nil => simp [lastIdxOf, lastIdxOf_not_mem c v hv]
  | cons a w' ih => simp [lastIdxOf, ih]

/-- C3 amended: when the text is prose ++ `[` ++ mid ++ `]` ++ prose with
no `[` in the leading prose and no `]` in the trailing prose (i.e. the
bracket-delimited span starts at the first `[` and ends at the last `]`),
`clean_json_response` returns exactly that span.  (The unamended claim —
extraction of a contained valid JSON array in general — fails when a stray
`]` follows the array, because the regex `\[.*\]` is greedy.) -/
theorem C3_extraction_span (u mid v : List Char) (hu : '[' ∉ u) (hv : ']' ∉ v) :
    clean_json_response (u ++ '[' :: (mid ++ ']' :: v)) = '[' :: (mid ++ [ ']' ]) := by
  unfold clean_json_response
  have hf : firstIdxOf '[' (u ++ '[' :: (mid ++ ']' :: v)) = some u.length :=
    firstIdxOf_append _ u _ hu
  have hl : lastIdxOf ']' (u ++ '[' :: (mid ++ ']' :: v)) = some (u.length + 1 + mid.length) := by
    have h0 := lastIdxOf_append ']' (u ++ '[' :: mid) v hv
    have e : (u ++ '[' :: mid) ++ ']' :: v = u ++ '[' :: (mid ++ ']' :: v) := by
      simp [List.append_assoc]
    rw [e] at h0
    rw [h0]
    simp [List.length_append]
    omega
  rw [hf, hl]
  dsimp only
  rw [if_pos (by omega)]
  unfold sliceIncl
  have hd : (u ++ '[' :: (mid ++ ']' :: v)).drop u.length = '[' :: (mid ++ ']' :: v) :=
    List.drop_left u _
  rw [hd]
  have ht : u.length + 1 + mid.length + 1 - u.length = mid.length + 2 := by omega
  rw [ht]
  rw [List.take_succ_cons]
  rw [take_length_add mid (']' :: v) 1]
  simp

/-- C3 witness: concrete prose around the array "[1, 2]": extraction
returns exactly the bracket span. -/
theorem C3_witness :
    ('[' ∉ "Sure, here is the JSON you wanted: ".data) ∧
    (']' ∉ " Hope this helps!".data) ∧
    clean_json_response
        ("Sure, here is the JSON you wanted: ".data ++
          '[' :: ("1, 2".data ++ ']' :: " Hope this helps!".data)) =
      '[' :: ("1, 2".data ++ [ ']' ]) :=
  ⟨by decide, by decide, C3_extraction_span _ _ _ (by decide) (by decide)⟩

/-- C3 counterexample: the input "[1] ]" contains the valid JSON array
"[1]" with surrounding prose, yet `clean_json_response` returns the whole
greedy span "[1] ]" — not the array's text, and not valid JSON at all
(`json_loads` rejects it while accepting "[1]"). -/
theorem C3_counterexample :
    clean_json_response "[1] ]".data = "[1] ]".data ∧
    "[1] ]".data ≠ "[1]".data ∧
    (json_loads "[1]").isSome = true ∧
    (json_loads (String.mk (clean_json_response "[1] ]".data))).isNone = true :=
  ⟨rfl, by decide, rfl, rfl⟩

lemma pctTriple_score (r : ℚ) (t : Record) :
    (pctTriple r t).2.2 = 85 ∨ (pctTriple r t).2.2 = 55 ∨ (pctTriple r t).2.2 = 20 := by
  have h := (bucketTriple_spec ((pctTriple r t).1)).1
  rw [← pctTriple_bucket] at h
  rcases h with h | h | h
  · exact Or.inl (by rw [h])
  · exact Or.inr (Or.inl (by rw [h]))
  · exact Or.inr (Or.inr (by rw [h]))

lemma normalizeRecord_pack (r : ℚ) (t : Record) :
    (∃ q, lookupKey (normalizeRecord r t) "pct_change" = some (.jnum q)) ∧
    (∃ s, lookupKey (normalizeRecord r t) "change_pct" = some (.jstr s)) ∧
    (∃ w, lookupKey (normalizeRecord r t) "popularity" = some w) ∧
    (∃ n : ℚ, lookupKey (normalizeRecord r t) "popularity_score" = some (.jnum n) ∧
      (n = 85 ∨ n = 55 ∨ n = 20)) ∧
    (∃ xs, lookupKey (normalizeRecord r t) "features" = some (.jarr xs)) ∧
    (∃ xs, lookupKey (normalizeRecord r t) "competitors" = some (.jarr xs)) ∧
    (∃ xs, lookupKey (normalizeRecord r t) "local_hotspots" = some (.jarr xs)) ∧
    (∃ xs, lookupKey (normalizeRecord r t) "tips" = some (.jarr xs)) := by
  obtain ⟨xs1, h1⟩ := listDefault_arr (lookupKey t "features")
  obtain ⟨xs2, h2⟩ := listDefault_arr (lookupKey t "competitors")
  obtain ⟨xs3, h3⟩ := listDefault_arr (lookupKey t "local_hotspots")
  obtain ⟨xs4, h4⟩ := listDefault_arr (lookupKey t "tips")
  refine ⟨⟨_, nr_pct_change r t⟩, ⟨_, nr_change_pct r t⟩, ⟨_, nr_popularity r t⟩,
    ⟨((pctTriple r t).2.2 : ℚ), nr_popularity_score r t, ?_⟩,
    ⟨xs1, by rw [nr_features r t, h1]⟩, ⟨xs2, by rw [nr_competitors r t, h2]⟩,
    ⟨xs3, by rw [nr_local_hotspots r t, h3]⟩, ⟨xs4, by rw [nr_tips r t, h4]⟩⟩
  rcases pctTriple_score r t with h | h | h
  · exact Or.inl (by rw [h]; norm_num)
  · exact Or.inr (Or.inl (by rw [h]; norm_num))
  · exact Or.inr (Or.inr (by rw [h]; norm_num))

/-- C2 amended: every record in a list returned by `process_city` is
either the per-city error record or a normalized record carrying
`pct_change` (a number), `change_pct` (a string), `popularity` (present),
`popularity_score` (one of 85/55/20) and the four list fields as lists.
The unamended claim fails: `city` and `trend` are never repaired, so a
record the LLM returned without them leaves the Normalizer without them
(see the counterexample), and `popularity`'s value is whatever the LLM
supplied when it supplied one. -/
theorem C2_normalizer_fields (rand : Nat → ℚ) (up : Upstream) (city : String) :
    ∀ rec ∈ process_city rand up city,
      (∃ e, rec = errorRecord city e) ∨
      ((∃ q, lookupKey rec "pct_change" = some (.jnum q)) ∧
       (∃ s, lookupKey rec "change_pct" = some (.jstr s)) ∧
       (∃ w, lookupKey rec "popularity" = some w) ∧
       (∃ n : ℚ, lookupKey rec "popularity_score" = some (.jnum n) ∧
         (n = 85 ∨ n = 55 ∨ n = 20)) ∧
       (∃ xs, lookupKey rec "features" = some (.jarr xs)) ∧
       (∃ xs, lookupKey rec "competitors" = some (.jarr xs)) ∧
       (∃ xs, lookupKey rec "local_hotspots" = some (.jarr xs)) ∧
       (∃ xs, lookupKey rec "tips" = some (.jarr xs))) := by
  intro rec hrec
  unfold process_city at hrec
  cases up with
  | fail e =>
      simp at hrec
      exact Or.inl ⟨e, hrec⟩
  | ok text =>
      dsimp only at hrec
      cases hj : json_loads (String.mk (clean_json_response text.data)) with
      | none =>
          rw [hj] at hrec
          simp at hrec
          exact Or.inl ⟨"JSONDecodeError", hrec⟩
      | some v =>
          rw [hj] at hrec
          cases v with
          | jarr items =>
              dsimp only at hrec
              cases hn : normalizeAll rand 0 items with
              | none =>
                  rw [hn] at hrec
                  simp at hrec
                  exact Or.inl ⟨"TypeError", hrec⟩
              | some recs =>
                  rw [hn] at hrec
                  simp at hrec
                  obtain ⟨r, t, rfl⟩ := normalizeAll_mem rand items 0 recs hn rec hrec
                  exact Or.inr (normalizeRecord_pack r t)
          | jnull => simp at hrec; exact Or.inl ⟨"TypeError", hrec⟩
          | jbool b => simp at hrec; exact Or.inl ⟨"TypeError", hrec⟩
          | jnum q => simp at hrec; exact Or.inl ⟨"TypeError", hrec⟩
          | jstr s => simp at hrec; exact Or.inl ⟨"TypeError", hrec⟩
          | jobj fs => simp at hrec; exact Or.inl ⟨"TypeError", hrec⟩

/-- C2 witness: the theorem applied to a failing city pipeline — the
single returned record is the error record. -/
theorem C2_witness :
    (∃ e, errorRecord "Delhi" "boom" = errorRecord "Delhi" e) ∨
    ((∃ q, lookupKey (errorRecord "Delhi" "boom") "pct_change" = some (.jnum q)) ∧
     (∃ s, lookupKey (errorRecord "Delhi" "boom") "change_pct" = some (.jstr s)) ∧
     (∃ w, lookupKey (errorRecord "Delhi" "boom") "popularity" = some w) ∧
     (∃ n : ℚ, lookupKey (errorRecord "Delhi" "boom") "popularity_score" = some (.jnum n) ∧
       (n = 85 ∨ n = 55 ∨ n = 20)) ∧
     (∃ xs, lookupKey (errorRecord "Delhi" "boom") "features" = some (.jarr xs)) ∧
     (∃ xs, lookupKey (errorRecord "Delhi" "boom") "competitors" = some (.jarr xs)) ∧
     (∃ xs, lookupKey (errorRecord "Delhi" "boom") "local_hotspots" = some (.jarr xs)) ∧
     (∃ xs, lookupKey (errorRecord "Delhi" "boom") "tips" = some (.jarr xs))) :=
  C2_normalizer_fields (fun _ => 10) (.fail "boom") "Delhi"
    (errorRecord "Delhi" "boom") (List.Mem.head _)

/-- C2 counterexample: when the LLM returns a JSON array holding one
empty object, `process_city` succeeds with one non-error record, but that
record has neither `city` nor `trend` — the Normalizer never repairs
those fields. -/
theorem C2_counterexample :
    (process_city (fun _ => 10) (.ok "[\x7b\x7d]") "Mumbai").length = 1 ∧
    lookupKey ((process_city (fun _ => 10) (.ok "[\x7b\x7d]") "Mumbai").headD []) "city" = none ∧
    lookupKey ((process_city (fun _ => 10) (.ok "[\x7b\x7d]") "Mumbai").headD []) "trend" = none ∧
    lookupKey ((process_city (fun _ => 10) (.ok "[\x7b\x7d]") "Mumbai").headD []) "error" = none :=
  ⟨rfl, rfl, rfl, rfl⟩

/-- C6: the batch response is the in-order flat concatenation of the
per-city lists, so its length is the sum of the per-city record counts;
an exception in one city's pipeline — an upstream (search or LLM)
exception, or a JSON parse failure of the cleaned LLM text — is caught
locally and becomes that city's single-element error record; and failing
one city's upstream changes only that city's contribution, leaving every
sibling pipeline's records untouched. -/
theorem C6_error_isolation (rand : String → Nat → ℚ) (env : String → String → Upstream)
    (cities : List String) (category : String) :
    (get_trends rand env cities category).length =
      (cities.map (fun c => (process_city (rand c) (env c category) c).length)).sum ∧
    (∀ c e, env c category = .fail e →
      process_city (rand c) (env c category) c = [errorRecord c e]) ∧
    (∀ c text, env c category = .ok text →
      json_loads (String.mk (clean_json_response text.data)) = none →
      process_city (rand c) (env c category) c = [errorRecord c "JSONDecodeError"]) ∧
    (∀ (cf e : String),
      get_trends rand (fun c cat => if c = cf then .fail e else env c cat) cities category =
        (cities.map (fun c =>
          if c = cf then [errorRecord c e]
          else process_city (rand c) (env c category) c)).flatten) := by
  refine ⟨?_, ?_, ?_, ?_⟩
  · unfold get_trends
    rw [List.length_flatten, List.map_map]
    rfl
  · intro c e h
    simp [process_city, h]
  · intro c text ht hp
    unfold process_city
    rw [ht]
    dsimp only
    rw [hp]
  · intro cf e
    induction cities with
    | nil => rfl
    | cons a rest ih =>
        simp only [get_trends, List.map_cons, List.flatten_cons] at ih ⊢
        rw [ih]
        by_cases ha : a = cf
        · subst ha
          simp [process_city]
        · simp [ha]

/-- C6 witness: a city whose upstream raises is reported as exactly the
single error record for that city, and a city whose LLM text fails JSON
parsing (here `"Sorry: [oops]"`, whose extracted span `"[oops]"` is not
valid JSON) is reported the same way. -/
theorem C6_witness :
    process_city ((fun _ => (10 : ℚ))) (.fail "SerpAPI quota exceeded") "Delhi" =
      [errorRecord "Delhi" "SerpAPI quota exceeded"] ∧
    process_city ((fun _ => (10 : ℚ))) (.ok "Sorry: [oops]") "Mumbai" =
      [errorRecord "Mumbai" "JSONDecodeError"] := by
  have hthm := C6_error_isolation (fun _ _ => 10)
      (fun c _ => if c = "Delhi" then .fail "SerpAPI quota exceeded" else .ok "Sorry: [oops]")
      ["Mumbai", "Delhi"] "streetwear"
  have h1 := hthm.2.1 "Delhi" "SerpAPI quota exceeded" (by simp)
  have h2 := hthm.2.2.1 "Mumbai" "Sorry: [oops]" (by simp) rfl
  exact ⟨by simpa using h1, by simpa using h2⟩

/-- C10: `fetch_feature_images` always returns one of the two dict shapes
for the requested feature/category (it never raises); on success the
`images` list has at most 6 entries, each a string starting with "http";
an exception from the LLM refinement call or from the image search is
caught and returned as the error dict with that exception's message. -/
theorem C10_feature_images (llm : Except String String)
    (google : String → Except String (List ImgEntry)) (feature category : String) :
    ((∃ rq imgs, fetch_feature_images llm google feature category = .ok feature category rq imgs) ∨
      (∃ e, fetch_feature_images llm google feature category = .err feature category e)) ∧
    (∀ f c rq imgs, fetch_feature_images llm google feature category = .ok f c rq imgs →
      imgs.length ≤ 6 ∧ ∀ u ∈ imgs, pyStartsWith u "http" = true) ∧
    (∀ e, llm = .error e →
      fetch_feature_images llm google feature category = .err feature category e) ∧
    (∀ content e, llm = .ok content →
      google (searchQuery (pyStrip content) category) = .error e →
      fetch_feature_images llm google feature category = .err feature category e) := by
  cases hl : llm with
  | error e =>
      refine ⟨Or.inr ⟨e, by simp [fetch_feature_images]⟩, ?_, ?_, ?_⟩
      · intro f c rq imgs h
        simp [fetch_feature_images] at h
      · intro e' he
        rw [Except.error.injEq] at he
        simp [fetch_feature_images, he]
      · intro content e' hc
        exact absurd hc (by simp)
  | ok content =>
      cases hg : google (searchQuery (pyStrip content) category) with
      | error e =>
          refine ⟨Or.inr ⟨e, by simp [fetch_feature_images, hg]⟩, ?_, ?_, ?_⟩
          · intro f c rq imgs h
            simp [fetch_feature_images, hg] at h
          · intro e' he
            exact absurd he (by simp)
          · intro content' e' hc hg'
            rw [Except.ok.injEq] at hc
            subst hc
            rw [hg] at hg'
            rw [Except.error.injEq] at hg'
            simp [fetch_feature_images, hg, hg']
      | ok image_results =>
          refine ⟨Or.inl ⟨pyStrip content,
            (((image_results.filter
                  (fun img => truthy (pyOrStr img.original img.thumbnail))).filterMap
                (fun img => pyOrStr img.original img.thumbnail)).filter
              (fun u => u ≠ "" && pyStartsWith u "http")).take 6,
            by simp [fetch_feature_images, hg]⟩, ?_, ?_, ?_⟩
          · intro f c rq imgs h
            simp only [fetch_feature_images, hg] at h
            cases h
            constructor
            · exact List.length_take_le 6 _
            · intro u hu
              have hm := List.take_subset 6 _ hu
              have := (List.mem_filter.mp hm).2
              rw [Bool.and_eq_true] at this
              exact this.2
          · intro e' he
            exact absurd he (by simp)
          · intro content' e' hc hg'
            rw [Except.ok.injEq] at hc
            subst hc
            rw [hg] at hg'
            simp at hg'

/-- C10 witness: with a concrete refinement answer and one image result,
the success images list is within the bound and every entry starts with
"http". -/
theorem C10_witness :
    (["http://a.com/x"] : List String).length ≤ 6 ∧
    ∀ u ∈ (["http://a.com/x"] : List String), pyStartsWith u "http" = true :=
  (C10_feature_images (.ok "sneakers")
      (fun _ => .ok [⟨some "http://a.com/x", none⟩]) "shoes" "footwear").2.1
    "shoes" "footwear" "sneakers" ["http://a.com/x"] rfl

/-- C1 amended: `get_trends` has no cache: each request dispatches the
per-city upstream pipeline exactly once per requested city, appending one
entry per city to the dispatch log whatever the log (i.e. whatever
identical requests were served before) — there is no lookup that can
short-circuit the upstream calls and no mapping that stores results. -/
theorem C1_no_cache {σ : Type} (pipe : σ → String → String → List Record × σ)
    (s : σ) (log : List (String × String)) (cities : List String) (category : String) :
    (get_trends_st (loggedPipe pipe) (s, log) cities category).2.2 =
      log ++ cities.map (fun c => (c, category)) := by
  induction cities generalizing s log with
  | nil => simp [get_trends_st]
  | cons a rest ih =>
      simp only [get_trends_st, loggedPipe]
      rw [ih]
      simp

/-- C1 counterexample: with a stateful upstream oracle (the LLM and the
search are external and not replayed from any cache) two identical
requests — cities ["Mumbai", "Delhi"], category "streetwear" — dispatch
the upstream pipeline 2 + 2 times, and the second response differs from
the first: the claimed "no second upstream call" and "byte-identical
second response" both fail on the cacheless code. -/
theorem C1_counterexample :
    cxFirst.2.2.length = 2 ∧ cxSecond.2.2.length = 4 ∧ cxSecond.1 ≠ cxFirst.1 := by
  refine ⟨rfl, rfl, ?_⟩
  intro h
  have e2 : cxSecond.1 = [[("2", JVal.jnull)], [("3", JVal.jnull)]] := rfl
  have e1 : cxFirst.1 = [[("0", JVal.jnull)], [("1", JVal.jnull)]] := rfl
  rw [e1, e2] at h
  simp at h

end Ecom
